import Mathlib

/-!
Verification of the FuzzingTool core against its natural-language
specification.  Python sources are shallowly embedded: pure helpers become
Lean functions on lists of characters or strings, the CLI controller
callbacks become explicit state transformers that also emit an event trace,
and fallible operations return Except values.  Components of the repository
that are not shipped in the source tree (only their tests or callers are)
are modelled from the specification; each such definition says so in its
doc comment.
-/

namespace FuzzingTool

/-- The fuzzing mark character (default value of the injection marker,
FUZZING_MARK in utils/consts.py). -/
def FUZZING_MARK : Char := '$'

/-- Modelled from the spec: get_pure_url of utils/http_utils.py (the module
itself is missing from the source tree; only tests/utils/test_http_utils.py
is present).  The pure URL is the URL with every fuzzing mark removed; a
mark directly followed by a dot (subdomain position) is removed together
with that separating dot, as pinned by test_get_pure_url_with_mark_and_dot. -/
def removeMarkChars : List Char → List Char
  | [] => []
  | [c] => if c = '$' then [] else [c]
  | c :: d :: rest =>
    if c = '$' then
      if d = '.' then removeMarkChars rest
      else removeMarkChars (d :: rest)
    else c :: removeMarkChars (d :: rest)

/-- Modelled from the spec: get_pure_url, lifted to strings. -/
def get_pure_url (url : String) : String := ⟨removeMarkChars url.data⟩

/-- Modelled from the spec: scheme stripping inside get_url_without_scheme of
utils/http_utils.py; returns the characters after the first "://" if any. -/
def dropSchemeChars : List Char → Option (List Char)
  | ':' :: '/' :: '/' :: rest => some rest
  | _ :: rest => dropSchemeChars rest
  | [] => none

/-- Modelled from the spec: get_url_without_scheme of utils/http_utils.py,
pinned by tests/utils/test_http_utils.py. -/
def get_url_without_scheme (url : String) : String :=
  match dropSchemeChars url.data with
  | some rest => ⟨rest⟩
  | none => url

/-- Modelled from the spec: the host part is everything before the first
slash of the scheme-less URL (get_host of utils/http_utils.py). -/
def hostChars : List Char → List Char
  | [] => []
  | c :: rest => if c = '/' then [] else c :: hostChars rest

/-- Modelled from the spec: get_host of utils/http_utils.py. -/
def get_host (url : String) : String :=
  ⟨hostChars (get_url_without_scheme url).data⟩

/-- Modelled from the spec: payload injection replaces every fuzzing mark
of the template URL by the payload (request parser, not in the source
tree). -/
def injectChars (payload : List Char) : List Char → List Char
  | [] => []
  | c :: rest =>
    if c = '$' then payload ++ injectChars payload rest
    else c :: injectChars payload rest

/-- Modelled from the spec: the injected URL for a payload. -/
def inject_url (url payload : String) : String :=
  ⟨injectChars payload.data url.data⟩

/-- The InvalidHostname exception, carrying the hostname that failed to
resolve (exceptions/request_exceptions.py, pinned by
tests/conn/requesters/test_subdomain_requester.py). -/
structure InvalidHostname where
  hostname : String
deriving DecidableEq

/-- A RequestException raised by the base requester. -/
structure RequestError where
  message : String
deriving DecidableEq

/-- Errors a SubdomainRequester.request call can raise. -/
inductive SubRequestError where
  | invalidHost (e : InvalidHostname)
  | requestFail (e : RequestError)
deriving DecidableEq

/-- Modelled from the spec: SubdomainRequester.resolve_hostname
(conn/requesters/subdomain_requester.py, missing from the source tree; its
tests are present).  The DNS lookup is a function returning none on a
socket.gaierror; in that case resolve_hostname raises InvalidHostname
instead of returning. -/
def resolve_hostname (dns : String → Option String) (hostname : String) :
    Except InvalidHostname String :=
  match dns hostname with
  | some ip => Except.ok ip
  | none => Except.error ⟨hostname⟩

/-- Modelled from the spec: SubdomainRequester.request.  It first resolves
the injected URL host to an IP, then performs the HTTP request (the base
Requester.request, abstracted as a function of the payload), and returns
the response, the round-trip time, and the custom map with the single
entry ip. -/
def subdomain_request {ρ : Type} (dns : String → Option String)
    (http : String → Except RequestError (ρ × ℚ))
    (url : String) (payload : String) :
    Except SubRequestError (ρ × ℚ × List (String × String)) :=
  match resolve_hostname dns (get_host (inject_url url payload)) with
  | Except.error e => Except.error (SubRequestError.invalidHost e)
  | Except.ok ip =>
    match http payload with
    | Except.error e => Except.error (SubRequestError.requestFail e)
    | Except.ok (resp, rtt) => Except.ok (resp, rtt, [("ip", ip)])

/-- Helper lemma: a character list without the fuzzing mark is left
untouched by mark removal. -/
theorem removeMarkChars_of_not_mem :
    ∀ l : List Char, '$' ∉ l → removeMarkChars l = l
  | [], _ => rfl
  | [c], h => by
    have hc : ¬ c = '$' := fun hc => h (by simp [hc])
    simp [removeMarkChars, hc]
  | c :: d :: rest, h => by
    have hc : ¬ c = '$' := fun hc => h (by simp [hc])
    have htail : '$' ∉ d :: rest := fun hm => h (List.mem_cons_of_mem c hm)
    have ih := removeMarkChars_of_not_mem (d :: rest) htail
    simp [removeMarkChars, hc, ih]

/-- A sample DNS table used to instantiate the requester theorems: only
ok.test-url.com resolves. -/
def sampleDns : String → Option String :=
  fun h => if h = "ok.test-url.com" then some "127.0.0.1" else none

/-- A sample HTTP primitive that always succeeds with an empty response
and zero round-trip time. -/
def sampleHttp : String → Except RequestError (Unit × ℚ) :=
  fun _ => Except.ok ((), 0)

/-- C1: for every payload, SubdomainRequester.request first resolves the
injected URL host to an IP, and on success returns a triple whose custom
map is exactly the singleton map from ip to the value returned by
resolve_hostname; whenever the DNS lookup fails, resolve_hostname raises
InvalidHostname instead of returning, and request propagates it without
performing the HTTP request. -/
theorem subdomain_request_resolves_and_returns_ip {ρ : Type}
    (dns : String → Option String)
    (http : String → Except RequestError (ρ × ℚ)) (url payload : String) :
    (∀ ip resp rtt,
      resolve_hostname dns (get_host (inject_url url payload)) = Except.ok ip →
      http payload = Except.ok (resp, rtt) →
      subdomain_request dns http url payload =
        Except.ok (resp, rtt, [("ip", ip)])) ∧
    (dns (get_host (inject_url url payload)) = none →
      resolve_hostname dns (get_host (inject_url url payload)) =
        Except.error ⟨get_host (inject_url url payload)⟩ ∧
      subdomain_request dns http url payload =
        Except.error (SubRequestError.invalidHost
          ⟨get_host (inject_url url payload)⟩)) := by
  constructor
  · intro ip resp rtt hres hhttp
    simp [subdomain_request, hres, hhttp]
  · intro hdns
    have hres : resolve_hostname dns (get_host (inject_url url payload)) =
        Except.error ⟨get_host (inject_url url payload)⟩ := by
      simp [resolve_hostname, hdns]
    exact ⟨hres, by simp [subdomain_request, hres]⟩

/-- C1 witness: concrete run on the subdomain template of the test suite,
with payload ok resolving to 127.0.0.1 and payload bad failing to
resolve. -/
theorem subdomain_request_resolves_and_returns_ip_witness :
    subdomain_request sampleDns sampleHttp "https://$.test-url.com/" "ok" =
      Except.ok ((), (0 : ℚ), [("ip", "127.0.0.1")]) ∧
    resolve_hostname sampleDns
        (get_host (inject_url "https://$.test-url.com/" "bad")) =
      Except.error ⟨"bad.test-url.com"⟩ :=
  ⟨(subdomain_request_resolves_and_returns_ip sampleDns sampleHttp
      "https://$.test-url.com/" "ok").1 "127.0.0.1" () 0 rfl rfl,
   ((subdomain_request_resolves_and_returns_ip sampleDns sampleHttp
      "https://$.test-url.com/" "bad").2 rfl).1⟩

/-- C8: get_pure_url removes every occurrence of the injection marker: it
is the identity on URLs without the marker, removes a trailing path
marker, and removes a subdomain marker together with its separating
dot. -/
theorem get_pure_url_removes_marks :
    (∀ url : String, FUZZING_MARK ∉ url.data → get_pure_url url = url) ∧
    get_pure_url "https://test-url.com/" = "https://test-url.com/" ∧
    get_pure_url "https://test-url.com/$" = "https://test-url.com/" ∧
    get_pure_url "https://$.test-url.com/" = "https://test-url.com/" := by
  refine ⟨fun url h => ?_, rfl, rfl, rfl⟩
  show (⟨removeMarkChars url.data⟩ : String) = url
  rw [removeMarkChars_of_not_mem url.data h]

/-- C8 witness: the universally quantified part applied to a concrete
URL without a marker. -/
theorem get_pure_url_removes_marks_witness :
    FUZZING_MARK ∉ "https://example.com/a".data ∧
    get_pure_url "https://example.com/a" = "https://example.com/a" :=
  ⟨by decide, get_pure_url_removes_marks.1 "https://example.com/a" (by decide)⟩

/-- First-occurrence deduplication: keeps the first occurrence of each
entry, preserving their order; seen accumulates entries already kept. -/
def first_occurrences (seen : List String) : List String → List String
  | [] => []
  | x :: xs =>
    if x ∈ seen then first_occurrences seen xs
    else x :: first_occurrences (x :: seen) xs

/-- Observable contract of the Python builtin set constructor applied to a
list: the result enumerates each distinct element of the list exactly once
(no duplicates, same membership).  CPython specifies nothing about the
enumeration order of a set; for strings it depends on randomized hashes. -/
def IsPySet (pySet : List String → List String) : Prop :=
  ∀ l : List String, (pySet l).Nodup ∧ ∀ x, x ∈ pySet l ↔ x ∈ l

/-- Diagnostic metadata recorded by CliController.__build_dictionary in
self.dict_metadata: the final length and, only when uniqueness is
configured, the number of removed duplicates. -/
structure DictMetadata where
  len : Nat
  removed : Option Nat
deriving DecidableEq

/-- The dictionary built over the final wordlist
(interfaces/cli/cli_controller.py passes it to Dictionary). -/
structure Dictionary where
  payloads : List String
deriving DecidableEq

/-- CliController.__build_dictionary (interfaces/cli/cli_controller.py):
starting from the already builded wordlist, when is_unique is set it
applies the Python set constructor once, records previous_length minus the
unique length under removed, and hands the collection to Dictionary. -/
def build_dictionary (pySet : List String → List String)
    (builded_wordlist : List String) (is_unique : Bool) :
    Dictionary × DictMetadata :=
  if is_unique then
    let previous_length := builded_wordlist.length
    let unique_wordlist := pySet builded_wordlist
    (⟨unique_wordlist⟩,
     ⟨unique_wordlist.length, some (previous_length - unique_wordlist.length)⟩)
  else
    (⟨builded_wordlist⟩, ⟨builded_wordlist.length, none⟩)

/-- Helper lemma: membership in the first-occurrence deduplication. -/
theorem mem_first_occurrences (x : String) :
    ∀ (l seen : List String),
      x ∈ first_occurrences seen l ↔ (x ∈ l ∧ x ∉ seen)
  | [], seen => by simp [first_occurrences]
  | y :: ys, seen => by
    by_cases hy : y ∈ seen
    · rw [show first_occurrences seen (y :: ys) = first_occurrences seen ys
        from by simp [first_occurrences, hy]]
      rw [mem_first_occurrences x ys seen]
      constructor
      · rintro ⟨h1, h2⟩; exact ⟨List.mem_cons_of_mem y h1, h2⟩
      · rintro ⟨h1, h2⟩
        rcases List.mem_cons.mp h1 with h | h
        · exact absurd (by rw [h]; exact hy) h2
        · exact ⟨h, h2⟩
    · rw [show first_occurrences seen (y :: ys)
          = y :: first_occurrences (y :: seen) ys
        from by simp [first_occurrences, hy]]
      rw [List.mem_cons, mem_first_occurrences x ys (y :: seen)]
      constructor
      · rintro (h | ⟨h1, h2⟩)
        · exact ⟨List.mem_cons.mpr (Or.inl h), by rw [h]; exact hy⟩
        · exact ⟨List.mem_cons_of_mem y h1,
            fun hs => h2 (List.mem_cons_of_mem y hs)⟩
      · rintro ⟨h1, h2⟩
        rcases List.mem_cons.mp h1 with h | h
        · exact Or.inl h
        · by_cases hxy : x = y
          · exact Or.inl hxy
          · exact Or.inr ⟨h, fun hs => by
              rcases List.mem_cons.mp hs with h3 | h3
              · exact hxy h3
              · exact h2 h3⟩

/-- Helper lemma: the first-occurrence deduplication has no duplicates. -/
theorem nodup_first_occurrences :
    ∀ (l seen : List String), (first_occurrences seen l).Nodup
  | [], _ => by simp [first_occurrences]
  | y :: ys, seen => by
    by_cases hy : y ∈ seen
    · simpa [first_occurrences, hy] using nodup_first_occurrences ys seen
    · rw [show first_occurrences seen (y :: ys)
          = y :: first_occurrences (y :: seen) ys
        from by simp [first_occurrences, hy]]
      refine List.nodup_cons.mpr ⟨?_, nodup_first_occurrences ys (y :: seen)⟩
      intro hmem
      exact ((mem_first_occurrences y ys (y :: seen)).mp hmem).2
        (List.mem_cons_self y seen)

/-- Helper lemma: any enumeration with set semantics has the same length as
the first-occurrence deduplication (both enumerate the same finite set
without repetition). -/
theorem length_eq_of_pyset (pySet : List String → List String)
    (hp : IsPySet pySet) (l : List String) :
    (pySet l).length = (first_occurrences [] l).length := by
  have h1 := hp l
  have hperm : List.Perm (pySet l) (first_occurrences [] l) := by
    apply List.perm_of_nodup_nodup_toFinset_eq h1.1 (nodup_first_occurrences l [])
    ext x
    simp only [List.mem_toFinset]
    rw [h1.2 x, mem_first_occurrences x l []]
    simp
  exact hperm.length_eq

/-- One admissible behavior of the Python set constructor: it enumerates
the distinct entries in reverse order of first occurrence. -/
def reversedPySet : List String → List String :=
  fun l => (first_occurrences [] l).reverse

/-- Helper lemma: the reversed enumeration satisfies the observable set
contract. -/
theorem isPySet_reversed : IsPySet reversedPySet := by
  intro l
  constructor
  · exact (List.nodup_reverse).mpr (nodup_first_occurrences l [])
  · intro x
    rw [reversedPySet, List.mem_reverse, mem_first_occurrences x l []]
    simp

/-- C2 counterexample: deduplication at dictionary-build time is performed
by the Python set constructor, whose enumeration order is unspecified, so
it does not preserve the order of first occurrence: a set enumeration
satisfying the observable set contract yields, on the wordlist
[a, b, a, c, b], a payload sequence different from the first-occurrence
order [a, b, c]. -/
theorem build_dictionary_not_order_preserving :
    ¬ (∀ pySet : List String → List String, IsPySet pySet →
        ∀ wordlist : List String,
          (build_dictionary pySet wordlist true).1.payloads =
            first_occurrences [] wordlist) := by
  intro h
  exact absurd (h reversedPySet isPySet_reversed ["a", "b", "a", "c", "b"])
    (by decide)

/-- C2 amended: when uniqueness is configured, deduplication happens
exactly once at dictionary-build time via set semantics — each distinct
entry is kept exactly once, though in no specified order — and the
metadata removed count equals the original length minus the deduplicated
length; without uniqueness the wordlist is untouched; for the wordlist
[a, b, a, c, b] the dictionary has exactly 3 payloads and removed = 2. -/
theorem build_dictionary_unique_spec (pySet : List String → List String)
    (hp : IsPySet pySet) (wordlist : List String) :
    (build_dictionary pySet wordlist true).1.payloads = pySet wordlist ∧
    ((build_dictionary pySet wordlist true).1.payloads).Nodup ∧
    (∀ x, x ∈ (build_dictionary pySet wordlist true).1.payloads ↔
      x ∈ wordlist) ∧
    (build_dictionary pySet wordlist true).1.payloads.length =
      (first_occurrences [] wordlist).length ∧
    (build_dictionary pySet wordlist true).2.removed =
      some (wordlist.length -
        (build_dictionary pySet wordlist true).1.payloads.length) ∧
    (build_dictionary pySet wordlist true).2.len =
      (build_dictionary pySet wordlist true).1.payloads.length ∧
    (build_dictionary pySet wordlist false).1.payloads = wordlist ∧
    (wordlist = ["a", "b", "a", "c", "b"] →
      (build_dictionary pySet wordlist true).1.payloads.length = 3 ∧
      (build_dictionary pySet wordlist true).2.removed = some 2) := by
  have hlen := length_eq_of_pyset pySet hp wordlist
  refine ⟨rfl, (hp wordlist).1, fun x => (hp wordlist).2 x, ?_, rfl, rfl, rfl, ?_⟩
  · simpa [build_dictionary] using hlen
  · intro hw
    subst hw
    have h3 : (first_occurrences ([] : List String)
        ["a", "b", "a", "c", "b"]).length = 3 := by decide
    constructor
    · simpa [build_dictionary, h3] using hlen
    · have : (build_dictionary pySet ["a", "b", "a", "c", "b"]
          true).1.payloads.length = 3 := by
        simpa [build_dictionary, h3] using hlen
      simp [build_dictionary] at this ⊢
      omega

/-- C2 witness: the amended statement evaluated at the reversed set
enumeration on the wordlist of the scenario. -/
theorem build_dictionary_unique_spec_witness :
    (build_dictionary reversedPySet ["a", "b", "a", "c", "b"]
      true).1.payloads.length = 3 ∧
    (build_dictionary reversedPySet ["a", "b", "a", "c", "b"]
      true).2.removed = some 2 :=
  (build_dictionary_unique_spec reversedPySet isPySet_reversed
    ["a", "b", "a", "c", "b"]).2.2.2.2.2.2.2 rfl

/-- An Error delivered to the exception callbacks (spec data model: index,
payload, message; the message field stands for the string conversion of
the error object). -/
structure Error where
  index : Nat
  payload : String
  message : String
deriving DecidableEq

/-- Observable effects emitted by the CLI controller callbacks of
interfaces/cli/cli_controller.py: terminal output, the log write performed
under the controller lock, and the fuzzer flow-control operations. -/
inductive CliEvent where
  | progressStatus (index total : Nat) (payload : String)
  | notWorkedBox (msg : String)
  | warningBox (msg : String)
  | infoBox (msg : String)
  | printLine (s : String)
  | lockedLogWrite (text payload : String)
  | pauseFuzzer
  | waitUntilPause
  | sleepSeconds (t : ℚ)
  | resumeFuzzer
deriving DecidableEq

/-- The flow-control events among CliEvent: the pool operations and the
controller sleep. -/
def CliEvent.isFlowControl : CliEvent → Bool
  | CliEvent.pauseFuzzer => true
  | CliEvent.waitUntilPause => true
  | CliEvent.sleepSeconds _ => true
  | CliEvent.resumeFuzzer => true
  | _ => false

/-- The controller state relevant to the callbacks of
interfaces/cli/cli_controller.py: the two verbosity flags of self.verbose,
the ignore_errors flag, the stop_action flag, the total request count,
whether the fuzzer pool is currently paused, and the configured blacklist
action parameter in seconds. -/
structure CtrlState where
  verbose0 : Bool
  verbose1 : Bool
  ignoreErrors : Bool
  stopAction : Option String
  totalRequests : Nat
  fuzzerPaused : Bool
  actionParam : ℚ
deriving DecidableEq

/-- CliController._request_exception_callback: when ignore_errors is set it
prints a progress status (quiet mode) or a not-worked line (detailed
verbose mode) and writes the error and its payload to the log file under
self.lock; otherwise it turns the error message into the stop_action
flag. -/
def request_exception_callback (st : CtrlState) (e : Error) :
    CtrlState × List CliEvent :=
  if st.ignoreErrors then
    let output :=
      if st.verbose0 = false then
        [CliEvent.progressStatus e.index st.totalRequests e.payload]
      else if st.verbose1 then [CliEvent.notWorkedBox e.message]
      else []
    (st, output ++ [CliEvent.lockedLogWrite e.message e.payload])
  else
    ({ st with stopAction := some e.message }, [])

/-- CliController._invalid_hostname_callback: prints a not-worked line in
detailed verbose mode, nothing in plain verbose mode, and a progress
status in quiet mode. -/
def invalid_hostname_callback (st : CtrlState) (e : Error) :
    CtrlState × List CliEvent :=
  if st.verbose0 then
    if st.verbose1 then (st, [CliEvent.notWorkedBox e.message]) else (st, [])
  else (st, [CliEvent.progressStatus e.index st.totalRequests e.payload])

/-- CliController._stop_callback: records the blacklisted status code into
the stop_action flag. -/
def stop_callback (st : CtrlState) (status : Nat) : CtrlState :=
  let msg := "Status code " ++ toString status ++ " detected"
  { st with stopAction := some msg }

/-- CliController._wait_callback: when the fuzzer is not already paused it
pauses the pool, drains in-flight workers, sleeps the configured action
parameter and resumes; when it is already paused it does nothing. -/
def wait_callback (st : CtrlState) (status : Nat) :
    CtrlState × List CliEvent :=
  if st.fuzzerPaused then (st, [])
  else
    (st,
     [CliEvent.pauseFuzzer,
      CliEvent.warningBox
        ("Status code " ++ toString status ++ " detected. Pausing threads ..."),
      CliEvent.waitUntilPause]
     ++ (if st.verbose0 then [] else [CliEvent.printLine ""])
     ++ [CliEvent.infoBox
          ("Waiting for " ++ toString st.actionParam ++ " seconds ..."),
         CliEvent.sleepSeconds st.actionParam,
         CliEvent.infoBox "Resuming target ...",
         CliEvent.resumeFuzzer])

/-- The possible outcomes of the join polling loop in
CliController.prepare_fuzzer. -/
inductive JoinOutcome where
  | completed
  | stopInterrupt (msg : String)
deriving DecidableEq

/-- The join polling loop of CliController.prepare_fuzzer modelled over a
trace of join cycles: each cycle records the value returned by
fuzzer.join() and the stop_action flag observed in that cycle.  The loop
body runs only while join() returns true, and raises StopActionInterrupt
when the observed flag is set. -/
def join_loop : List (Bool × Option String) → JoinOutcome
  | [] => JoinOutcome.completed
  | (false, _) :: _ => JoinOutcome.completed
  | (true, none) :: rest => join_loop rest
  | (true, some msg) :: _ => JoinOutcome.stopInterrupt msg

/-- Helper lemma: the join loop raises exactly at the first cycle that
observes the flag while join() still returns true. -/
theorem join_loop_raises_at_first_flag (msg : String) :
    ∀ (pre rest : List (Bool × Option String)),
      (∀ c ∈ pre, c = (true, none)) →
      join_loop (pre ++ (true, some msg) :: rest) =
        JoinOutcome.stopInterrupt msg
  | [], _, _ => rfl
  | c :: pre, rest, h => by
    have hc : c = (true, none) := h c (List.mem_cons_self c pre)
    subst hc
    simpa [join_loop] using join_loop_raises_at_first_flag msg pre rest
      (fun d hd => h d (List.mem_cons_of_mem _ hd))

/-- Helper lemma: while the flag is never set, the join loop never raises
a stop interrupt. -/
theorem join_loop_completed_of_no_flag :
    ∀ trace : List (Bool × Option String),
      (∀ c ∈ trace, c.2 = none) → join_loop trace = JoinOutcome.completed
  | [], _ => rfl
  | (b, s) :: rest, h => by
    have hs : s = none := h (b, s) (List.mem_cons_self _ _)
    subst hs
    cases b
    · rfl
    · simpa [join_loop] using join_loop_completed_of_no_flag rest
        (fun d hd => h d (List.mem_cons_of_mem _ hd))

/-- C3: for every Error delivered to the request-exception callback: with
ignore-errors enabled the error text and payload are written to the log
under the controller lock, every progress update emitted carries the error
index and payload (and one is emitted whenever the progress display is
active, i.e. quiet mode), and the run continues since the state — in
particular stop_action — is unchanged; with ignore-errors disabled the
error is converted to a stop action: stop_action is set to the error
message.  Both branches are total, so the callback never raises. -/
theorem request_exception_callback_spec (st : CtrlState) (e : Error) :
    (st.ignoreErrors = true →
      (request_exception_callback st e).1 = st ∧
      CliEvent.lockedLogWrite e.message e.payload ∈
        (request_exception_callback st e).2 ∧
      (∀ i t p, CliEvent.progressStatus i t p ∈
          (request_exception_callback st e).2 →
        i = e.index ∧ p = e.payload) ∧
      (st.verbose0 = false →
        CliEvent.progressStatus e.index st.totalRequests e.payload ∈
          (request_exception_callback st e).2)) ∧
    (st.ignoreErrors = false →
      (request_exception_callback st e).1 =
        { st with stopAction := some e.message } ∧
      (request_exception_callback st e).2 = []) := by
  constructor
  · intro hig
    by_cases h0 : st.verbose0 <;> by_cases h1 : st.verbose1 <;>
      constructor <;>
      simp [request_exception_callback, hig, h0, h1] <;>
      intro i t p h <;> simp_all
  · intro hig
    simp [request_exception_callback, hig]

/-- A sample error used to instantiate the callback theorems. -/
def sampleErr : Error := ⟨3, "w", "Connection aborted"⟩

/-- A sample controller state: quiet mode, ignore-errors on, fuzzer
running, a wait parameter of one second. -/
def quietIgnoreState : CtrlState := ⟨false, false, true, none, 10, false, 1⟩

/-- C3 witness: the callback evaluated in quiet mode with ignore-errors
enabled. -/
theorem request_exception_callback_spec_witness :
    quietIgnoreState.ignoreErrors = true ∧
    (request_exception_callback quietIgnoreState sampleErr).1 =
      quietIgnoreState ∧
    CliEvent.lockedLogWrite "Connection aborted" "w" ∈
      (request_exception_callback quietIgnoreState sampleErr).2 :=
  ⟨rfl,
   ((request_exception_callback_spec quietIgnoreState sampleErr).1 rfl).1,
   ((request_exception_callback_spec quietIgnoreState sampleErr).1 rfl).2.1⟩

/-- C4: the invalid-hostname callback leaves the controller state — in
particular stop_action — unchanged, only emits output (a not-worked line
in detailed verbose mode, nothing in plain verbose mode, a progress update
in quiet mode), and emits no flow-control event, so hostname-resolution
failures never stop the run; the callback is total, so it never raises. -/
theorem invalid_hostname_callback_never_stops (st : CtrlState) (e : Error) :
    (invalid_hostname_callback st e).1 = st ∧
    (invalid_hostname_callback st e).2 =
      (if st.verbose0 then
        (if st.verbose1 then [CliEvent.notWorkedBox e.message] else [])
       else [CliEvent.progressStatus e.index st.totalRequests e.payload]) ∧
    (∀ ev ∈ (invalid_hostname_callback st e).2,
      CliEvent.isFlowControl ev = false) := by
  by_cases h0 : st.verbose0 <;> by_cases h1 : st.verbose1 <;>
    simp [invalid_hostname_callback, h0, h1, CliEvent.isFlowControl]

/-- C4 witness: the callback evaluated in quiet mode on a sample error. -/
theorem invalid_hostname_callback_never_stops_witness :
    (invalid_hostname_callback quietIgnoreState sampleErr).1 =
      quietIgnoreState ∧
    CliEvent.isFlowControl (CliEvent.progressStatus 3 10 "w") = false :=
  ⟨(invalid_hostname_callback_never_stops quietIgnoreState sampleErr).1,
   (invalid_hostname_callback_never_stops quietIgnoreState sampleErr).2.2
     (CliEvent.progressStatus 3 10 "w") (by decide)⟩

/-- C5: the stop callback sets the stop_action flag to a message naming
the status code; the join loop of prepare_fuzzer raises the stop interrupt
at the first join cycle that observes the flag while join() still returns
true, and never raises while the flag is unset. -/
theorem stop_action_and_join_loop (st : CtrlState) (status : Nat)
    (pre rest : List (Bool × Option String)) (msg : String) :
    (stop_callback st status).stopAction =
      some ("Status code " ++ toString status ++ " detected") ∧
    ((∀ c ∈ pre, c = (true, none)) →
      join_loop (pre ++ (true, some msg) :: rest) =
        JoinOutcome.stopInterrupt msg) ∧
    ((∀ c ∈ pre, c.2 = none) → join_loop pre = JoinOutcome.completed) :=
  ⟨rfl, join_loop_raises_at_first_flag msg pre rest,
   join_loop_completed_of_no_flag pre⟩

/-- C5 witness: a blacklisted 403 fires the stop callback and the join
loop raises at its second cycle, the first one that observes the flag. -/
theorem stop_action_and_join_loop_witness :
    (stop_callback quietIgnoreState 403).stopAction =
      some "Status code 403 detected" ∧
    join_loop [(true, none), (true, some "Status code 403 detected")] =
      JoinOutcome.stopInterrupt "Status code 403 detected" :=
  ⟨(stop_action_and_join_loop quietIgnoreState 403 [(true, none)] []
      "Status code 403 detected").1,
   (stop_action_and_join_loop quietIgnoreState 403 [(true, none)] []
      "Status code 403 detected").2.1 (by decide)⟩

/-- C6: when the fuzzer is not already paused the wait callback performs,
in this order, exactly the flow-control steps pause the pool, drain the
in-flight workers, sleep for the configured action parameter, resume the
pool; when the fuzzer is already paused it performs none of them and
emits nothing. -/
theorem wait_callback_spec (st : CtrlState) (status : Nat) :
    (st.fuzzerPaused = false →
      ((wait_callback st status).2).filter CliEvent.isFlowControl =
        [CliEvent.pauseFuzzer, CliEvent.waitUntilPause,
         CliEvent.sleepSeconds st.actionParam, CliEvent.resumeFuzzer] ∧
      (wait_callback st status).1 = st) ∧
    (st.fuzzerPaused = true → wait_callback st status = (st, [])) := by
  constructor
  · intro h
    by_cases h0 : st.verbose0 <;>
      simp [wait_callback, h, h0, CliEvent.isFlowControl, List.filter]
  · intro h
    simp [wait_callback, h]

/-- C6 witness: the wait callback on a non-paused fuzzer with a one-second
action parameter. -/
theorem wait_callback_spec_witness :
    ((wait_callback quietIgnoreState 429).2).filter CliEvent.isFlowControl =
      [CliEvent.pauseFuzzer, CliEvent.waitUntilPause,
       CliEvent.sleepSeconds 1, CliEvent.resumeFuzzer] :=
  ((wait_callback_spec quietIgnoreState 429).1 rfl).1

/-- The four fuzzing modes of the injector. -/
inductive FuzzType where
  | pathFuzzing
  | subdomainFuzzing
  | methodFuzzing
  | dataFuzzing
deriving DecidableEq

/-- Requester.is_url_discovery: true exactly for the URL-discovery modes,
path fuzzing and subdomain fuzzing. -/
def is_url_discovery : FuzzType → Bool
  | FuzzType.pathFuzzing => true
  | FuzzType.subdomainFuzzing => true
  | _ => false

/-- The allowed-status representation of the spec: the union of a discrete
status list and an optional closed range. -/
structure StatusSpec where
  statuses : List Nat
  statusRange : Option (Nat × Nat)
deriving DecidableEq

/-- Membership test for an allowed-status specification. -/
def statusAllowed (spec : StatusSpec) (s : Nat) : Bool :=
  decide (s ∈ spec.statuses) ||
    (match spec.statusRange with
     | some (lo, hi) => decide (lo ≤ s) && decide (s ≤ hi)
     | none => false)

/-- Modelled from the spec: the default allowed status of the Matcher is
the closed range 200 to 399 (the Matcher module is not in the source
tree). -/
def defaultAllowedStatus : StatusSpec := ⟨[], some (200, 399)⟩

/-- Modelled from the spec: the allowed status produced by
Matcher.set_allowed_status applied to the string 200-399,401,403 — the
closed range 200 to 399 together with the discrete codes 401 and 403. -/
def urlDiscoveryAllowedStatus : StatusSpec := ⟨[401, 403], some (200, 399)⟩

/-- The Matcher state that target preparation touches: its allowed-status
specification. -/
structure Matcher where
  allowedStatus : StatusSpec
deriving DecidableEq

/-- Modelled from the spec: Matcher.allowed_status_is_default — whether
the allowed status is still the default. -/
def allowed_status_is_default (m : Matcher) : Bool :=
  decide (m.allowedStatus = defaultAllowedStatus)

/-- CliController.__prepare_matcher (interfaces/cli/cli_controller.py):
when the requester is in a URL-discovery mode and the matcher allowed
status is still the default, the allowed status is set to 200-399,401,403;
otherwise the matcher is left unchanged. -/
def prepare_matcher (fuzzType : FuzzType) (m : Matcher) : Matcher :=
  if is_url_discovery fuzzType && allowed_status_is_default m then
    { m with allowedStatus := urlDiscoveryAllowedStatus }
  else m

/-- C7: during target preparation the matcher allowed status becomes the
union of the closed range 200 to 399 with the discrete codes 401 and 403
exactly when the requester is in a URL-discovery mode and the allowed
status is still the default; in every other case the matcher is left
unchanged. -/
theorem prepare_matcher_spec (ft : FuzzType) (m : Matcher) :
    (is_url_discovery ft = true → allowed_status_is_default m = true →
      (prepare_matcher ft m).allowedStatus = urlDiscoveryAllowedStatus ∧
      ∀ s : Nat, statusAllowed (prepare_matcher ft m).allowedStatus s = true ↔
        ((200 ≤ s ∧ s ≤ 399) ∨ s = 401 ∨ s = 403)) ∧
    (¬ (is_url_discovery ft = true ∧ allowed_status_is_default m = true) →
      prepare_matcher ft m = m) := by
  constructor
  · intro hu hd
    have hcond : (is_url_discovery ft && allowed_status_is_default m) = true := by
      rw [hu, hd]; rfl
    have hst : (prepare_matcher ft m).allowedStatus =
        urlDiscoveryAllowedStatus := by
      simp [prepare_matcher, hcond]
    refine ⟨hst, fun s => ?_⟩
    rw [hst]
    simp only [statusAllowed, urlDiscoveryAllowedStatus, List.mem_cons,
      List.not_mem_nil, or_false, Bool.or_eq_true, Bool.and_eq_true,
      decide_eq_true_eq]
    omega
  · intro hn
    rcases Bool.eq_false_or_eq_true (is_url_discovery ft) with h | h
    · rcases Bool.eq_false_or_eq_true (allowed_status_is_default m) with h2 | h2
      · exact absurd ⟨h, h2⟩ hn
      · simp [prepare_matcher, h, h2]
    · simp [prepare_matcher, h]

/-- C7 witness: subdomain fuzzing with a still-default matcher receives
the widened allowed status, which accepts 401. -/
theorem prepare_matcher_spec_witness :
    (prepare_matcher FuzzType.subdomainFuzzing
      ⟨defaultAllowedStatus⟩).allowedStatus = urlDiscoveryAllowedStatus ∧
    statusAllowed (prepare_matcher FuzzType.subdomainFuzzing
      ⟨defaultAllowedStatus⟩).allowedStatus 401 = true :=
  ⟨((prepare_matcher_spec FuzzType.subdomainFuzzing
      ⟨defaultAllowedStatus⟩).1 rfl (by decide)).1,
   (((prepare_matcher_spec FuzzType.subdomainFuzzing
      ⟨defaultAllowedStatus⟩).1 rfl (by decide)).2 401).mpr
     (Or.inr (Or.inl rfl))⟩

/-- A custom-field value as the Python code distinguishes it: either a
list of strings or any non-list value, represented by its string
conversion. -/
inductive CustomField where
  | listVal (xs : List String)
  | nonList (s : String)
deriving DecidableEq

/-- ResultUtils.format_custom_field (utils/result_utils.py): when detailed
output is on (the class flag detailed_results or the force_detailed
argument) a list value is joined with a comma separator; otherwise a list
value is summarized by its match count; any non-list value is converted
with str regardless of the flags. -/
def format_custom_field (detailed_results : Bool) (custom_field : CustomField)
    (force_detailed : Bool) : String :=
  if force_detailed || detailed_results then
    match custom_field with
    | CustomField.listVal xs => String.intercalate ", " xs
    | CustomField.nonList s => s
  else
    match custom_field with
    | CustomField.listVal xs => "found " ++ toString xs.length ++ " match(s)"
    | CustomField.nonList s => s

/-- C9: format_custom_field joins list elements with a comma separator
when detailed output is enabled via the class flag or force_detailed,
returns the match-count summary for a list when detailed output is
disabled, and returns the string conversion of every non-list value
regardless of the flags. -/
theorem format_custom_field_spec (detailed_results force_detailed : Bool) :
    (∀ xs, (force_detailed || detailed_results) = true →
      format_custom_field detailed_results (CustomField.listVal xs)
        force_detailed = String.intercalate ", " xs) ∧
    (∀ xs, (force_detailed || detailed_results) = false →
      format_custom_field detailed_results (CustomField.listVal xs)
        force_detailed = "found " ++ toString xs.length ++ " match(s)") ∧
    (∀ s, format_custom_field detailed_results (CustomField.nonList s)
      force_detailed = s) := by
  refine ⟨fun xs h => ?_, fun xs h => ?_, fun s => ?_⟩
  · simp [format_custom_field, h]
  · simp [format_custom_field, h]
  · cases force_detailed <;> cases detailed_results <;>
      simp [format_custom_field]

/-- C9 witness: a two-element list rendered with and without detailed
output. -/
theorem format_custom_field_spec_witness :
    format_custom_field false (CustomField.listVal ["a", "b"]) false =
      "found 2 match(s)" ∧
    format_custom_field true (CustomField.listVal ["a", "b"]) false =
      "a, b" :=
  ⟨(format_custom_field_spec false false).2.1 ["a", "b"] rfl,
   (format_custom_field_spec true false).1 ["a", "b"] rfl⟩

/-- A status token of the -Xc comma list of CLIParser
(modules/parsers/CLIParser.py): either a plain code or a range written
with a dash. -/
inductive StatusToken where
  | single (code : Nat)
  | closedRange (left right : Nat)
deriving DecidableEq

/-- CLIParser.__getAllowedStatus for one token: a plain code is appended
to the allowed list; a range token has its bounds swapped when the right
one is smaller and then overwrites the stored range wholesale. -/
def getAllowedStatus (tok : StatusToken)
    (allowedList allowedRange : List Nat) : List Nat × List Nat :=
  match tok with
  | StatusToken.single code => (allowedList ++ [code], allowedRange)
  | StatusToken.closedRange l r =>
    let p := if r < l then (r, l) else (l, r)
    (allowedList, [p.1, p.2])

/-- The CLIParser.checkMatcher loop over the comma-separated -Xc tokens,
starting from an empty list and an empty range. -/
def processAllowedStatus (toks : List StatusToken) : List Nat × List Nat :=
  toks.foldl (fun acc tok => getAllowedStatus tok acc.1 acc.2) ([], [])

/-- The last range token of a token list, if any. -/
def lastRangeToken : List StatusToken → Option (Nat × Nat)
  | [] => none
  | StatusToken.single _ :: rest => lastRangeToken rest
  | StatusToken.closedRange l r :: rest =>
    match lastRangeToken rest with
    | some p => some p
    | none => some (l, r)

/-- Helper lemma: the stored range after the token loop is the normalized
last range token, whatever the starting accumulator held. -/
theorem foldl_allowed_status_range :
    ∀ (toks : List StatusToken) (init : List Nat × List Nat),
      (toks.foldl (fun acc tok => getAllowedStatus tok acc.1 acc.2) init).2 =
        (match lastRangeToken toks with
         | none => init.2
         | some (l, r) => if r < l then [r, l] else [l, r])
  | [], _ => rfl
  | StatusToken.single c :: rest, init => by
    simp only [List.foldl_cons]
    rw [foldl_allowed_status_range rest _]
    cases h : lastRangeToken rest <;>
      simp [lastRangeToken, h, getAllowedStatus]
  | StatusToken.closedRange l r :: rest, init => by
    simp only [List.foldl_cons]
    rw [foldl_allowed_status_range rest _]
    cases h : lastRangeToken rest with
    | none =>
      by_cases hrl : r < l <;>
        simp [lastRangeToken, h, getAllowedStatus, hrl]
    | some p => simp [lastRangeToken, h, getAllowedStatus]

/-- C10: a range token with its right bound below the left one is stored
with the bounds swapped, so the stored range always satisfies left bound
at most right bound, and every range token overwrites the previously
stored range, so after the whole comma list at most one closed range — the
normalized last range token — is kept. -/
theorem allowed_status_range_normalized (toks : List StatusToken)
    (lo hi : Nat) (lst rng : List Nat) :
    (∃ a b, (getAllowedStatus (StatusToken.closedRange lo hi) lst rng).2 =
      [a, b] ∧ a ≤ b) ∧
    (hi < lo →
      (getAllowedStatus (StatusToken.closedRange lo hi) lst rng).2 =
        [hi, lo]) ∧
    (processAllowedStatus toks).2 =
      (match lastRangeToken toks with
       | none => []
       | some (l, r) => if r < l then [r, l] else [l, r]) ∧
    ((processAllowedStatus toks).2 = [] ∨
      ∃ a b, (processAllowedStatus toks).2 = [a, b] ∧ a ≤ b) := by
  have hrange := foldl_allowed_status_range toks ([], [])
  refine ⟨?_, ?_, hrange, ?_⟩
  · by_cases h : hi < lo
    · exact ⟨hi, lo, by simp [getAllowedStatus, h], by omega⟩
    · exact ⟨lo, hi, by simp [getAllowedStatus, h], by omega⟩
  · intro h
    simp [getAllowedStatus, h]
  · rw [processAllowedStatus] at *
    rw [hrange]
    cases h : lastRangeToken toks with
    | none => exact Or.inl rfl
    | some p =>
      rcases p with ⟨l, r⟩
      by_cases hlr : r < l
      · exact Or.inr ⟨r, l, by simp [hlr], by omega⟩
      · exact Or.inr ⟨l, r, by simp [hlr], by omega⟩

/-- C10 witness: the token list 500-200, 200, 403-401 stores the single
normalized range 401 to 403, and the first token alone normalizes to the
range 200 to 500. -/
theorem allowed_status_range_normalized_witness :
    (processAllowedStatus [StatusToken.closedRange 500 200,
      StatusToken.single 200, StatusToken.closedRange 403 401]).2 =
      [401, 403] ∧
    (getAllowedStatus (StatusToken.closedRange 500 200) [] []).2 =
      [200, 500] :=
  ⟨(allowed_status_range_normalized [StatusToken.closedRange 500 200,
      StatusToken.single 200, StatusToken.closedRange 403 401]
      500 200 [] []).2.2.1,
   (allowed_status_range_normalized [] 500 200 [] []).2.1 (by decide)⟩

end FuzzingTool
